import Mathlib

/-!
# encconv: an Erlang NIF for character-set conversion

A shallow embedding of `encconv.h` (class `portpp::EncodingConverter`, with its
iconv build and its MLang build) and of `encconv.cpp` (the NIF glue), followed by
theorems about the conversion loop, the one-shot conversion, option parsing and
the handle-based entry points.

Conventions of the embedding.

* A byte is a natural number; buffers are lists of bytes.  A `const void*`
  together with a byte count is the list of bytes found at the pointer.
* `size_t` counters are natural numbers.  The library calls only ever decrease
  `inputBytesLeft` and `outputBytesLeft`, so the subtractions of the source do not
  wrap and are written with natural-number subtraction.
* The operating-system services the class is built on (`iconv`, the MLang COM
  objects) and the Erlang runtime are not part of the repository: they are
  parameters of the embedding (`Iconv`, `MLang`, `ErlNifEnv`).
* A `do ... while` loop whose exit depends on such a service is embedded with a
  fuel argument; `none` means that the fuel ran out before the loop left.
* Converter objects live in a heap (address, object); a handle is an address.
-/

namespace Encconv

/-- A byte of an input or output buffer. -/
abbrev Byte := Nat

/-! ## Erlang terms and the `enif_*` accessors used by the glue -/

/-- Erlang terms, as far as the NIF inspects or builds them.  Atom names and
strings are Latin-1 texts read as C strings (they hold no NUL character). -/
inductive Term where
  | atom (name : String)
  | integer (n : Int)
  | binary (bytes : List Byte)
  | nil
  | cons (head tail : Term)
  | tuple2 (a b : Term)
  | tuple3 (a b c : Term)
  deriving DecidableEq, Repr

/-- Model of `enif_is_list`: the empty list or a list cell. -/
def enif_is_list : Term → Bool
  | .nil => true
  | .cons _ _ => true
  | _ => false

/-- Model of `enif_get_atom(env, t, buf, size, ERL_NIF_LATIN1)`: the atom text when the
term is an atom whose Latin-1 text and terminating NUL fit in `size` bytes. -/
def enif_get_atom (t : Term) (size : Nat) : Option String :=
  match t with
  | .atom name =>
    if name.data.length < size ∧ name.data.all (fun c => decide (c.toNat < 256)) = true
    then some name else none
  | _ => none

/-- Model of `enif_get_uint64`: succeeds on integers in the range of a 64-bit unsigned. -/
def enif_get_uint64 : Term → Option Nat
  | .integer n => if 0 ≤ n ∧ n < 18446744073709551616 then some n.toNat else none
  | _ => none

/-- The character codes of a proper list of bytes. -/
def stringChars : Term → Option (List Nat)
  | .nil => some []
  | .cons (.integer n) t =>
    if 0 ≤ n ∧ n < 256 then (stringChars t).map (fun cs => n.toNat :: cs) else none
  | _ => none

/-- Model of `enif_get_string(env, t, buf, size, ERL_NIF_LATIN1) > 0`: the text when the
term is a proper list of bytes that fits, with its NUL, in `size` bytes. -/
def enif_get_string (t : Term) (size : Nat) : Option String :=
  match stringChars t with
  | some cs => if cs.length < size then some (String.mk (cs.map Char.ofNat)) else none
  | none => none

/-- Model of `enif_make_string(env, s, ERL_NIF_LATIN1)`. -/
def enif_make_string (s : String) : Term :=
  s.data.foldr (fun c t => Term.cons (Term.integer (Int.ofNat c.toNat)) t) Term.nil

/-- Model of `enif_make_uint64`. -/
def enif_make_uint64 (n : Nat) : Term := Term.integer (Int.ofNat n)

/-- The part of the Erlang runtime the glue depends on: whether a binary of a given
size can be allocated (`enif_alloc_binary`). -/
structure ErlNifEnv where
  enif_alloc_binary : Nat → Bool

/-- Source function `binary_to_string`. -/
def binary_to_string (term : Term) : Option (List Byte) :=
  match term with
  | .binary bytes => some bytes
  | _ => none

/-- Source function `string_to_binary`. -/
def string_to_binary (env : ErlNifEnv) (s : List Byte) : Option Term :=
  if !env.enif_alloc_binary s.length then none
  else some (Term.binary s)

/-! ## Option flags -/

/-- Enumerator `EncodingConverter::CONVERT_NONE`. -/
def CONVERT_NONE : Nat := 0
/-- Enumerator `EncodingConverter::CONVERT_TRANSLITERATE`. -/
def CONVERT_TRANSLITERATE : Nat := 1
/-- Enumerator `EncodingConverter::CONVERT_DISCARD_ILSEQ`. -/
def CONVERT_DISCARD_ILSEQ : Nat := 2

/-- The loop of `parse_option_list`, from the list cell `lst` with the flags `opt`
gathered so far. -/
def parse_option_cells : Term → Nat → Option Nat
  | .cons head lst, opt =>
    match enif_get_atom head 32 with
    | none => none
    | some optstr =>
      if optstr = "translit" then parse_option_cells lst (opt ||| CONVERT_TRANSLITERATE)
      else if optstr = "ignore" then parse_option_cells lst (opt ||| CONVERT_DISCARD_ILSEQ)
      else none
  | _, opt => some opt

/-- Source function `parse_option_list`: `some opt` when it returns true with `opt` set. -/
def parse_option_list (lst : Term) : Option Nat :=
  if !enif_is_list lst then none
  else parse_option_cells lst CONVERT_NONE

/-! ## The converter class -/

/-- Size of the stack buffer `char buf[1024]` of the convenience methods. -/
def BUFSIZE : Nat := 1024

/-- What one call of the chunk primitive
`bool convert(const void* input, size_t& inputBytesLeft, void* output, size_t& outputBytesLeft)`
leaves behind: its return value, both counters, the output buffer read from its first
byte, and the converter object. -/
structure ChunkResult (σ : Type) where
  ok : Bool
  inputBytesLeft : Nat
  outputBytesLeft : Nat
  output : List Byte
  self : σ

/-- What a call of `bool flush(void* output, size_t& outputBytesLeft)` leaves behind. -/
structure FlushResult (σ : Type) where
  ok : Bool
  outputBytesLeft : Nat
  output : List Byte
  self : σ

/-- The class `EncodingConverter` of one build, over the type `σ` of its objects:
construction as done by `create_converter_noabort` (`none` is the null pointer),
`valid`, the chunk primitive `convert`, the primitive `flush`, and `reset`. -/
structure EncodingConverter (σ : Type) where
  create_converter_noabort : String → String → Nat → Option σ
  valid : σ → Bool
  convert : σ → List Byte → Nat → Nat → ChunkResult σ
  flush : σ → Nat → FlushResult σ
  reset : σ → σ

/-- One call of the chunk primitive made by the convenience loop: the bytes at the
pointer it was handed, the count it was handed, and what it left behind. -/
structure ChunkCall (σ : Type) where
  input : List Byte
  inputBytesLeft : Nat
  result : ChunkResult σ

/-- Result of the convenience method `std::string convert(const void*, size_t&)`: the
returned string, the final value of `inputBytesLeft`, the converter object, and the
chunk calls made, in order. -/
structure ConvertResult (σ : Type) where
  ret : List Byte
  inputBytesLeft : Nat
  self : σ
  calls : List (ChunkCall σ)

/-- The `do ... while (inputBytesLeft > 0)` loop of the convenience `convert`.  The
pointer `input` is the same in every iteration. -/
def convert_loop {σ : Type} (E : EncodingConverter σ) (input : List Byte) :
    Nat → σ → Nat → List Byte → List (ChunkCall σ) → Option (ConvertResult σ)
  | 0, _, _, _, _ => none
  | fuel + 1, self, inputBytesLeft, ret, calls =>
    let r := E.convert self input inputBytesLeft BUFSIZE
    let calls := calls ++ [ChunkCall.mk input inputBytesLeft r]
    if !r.ok then
      some (ConvertResult.mk ret r.inputBytesLeft r.self calls)
    else
      let ret := ret ++ r.output.take (BUFSIZE - r.outputBytesLeft)
      if r.inputBytesLeft > 0 then
        convert_loop E input fuel r.self r.inputBytesLeft ret calls
      else
        some (ConvertResult.mk ret r.inputBytesLeft r.self calls)

/-- Convenience method `std::string convert(const void* input, size_t& inputBytesLeft)`. -/
def convert_str {σ : Type} (E : EncodingConverter σ) (fuel : Nat) (self : σ)
    (input : List Byte) (inputBytesLeft : Nat) : Option (ConvertResult σ) :=
  convert_loop E input fuel self inputBytesLeft [] []

/-- Convenience method `std::string flush()`: the returned string and the object. -/
def flush_str {σ : Type} (E : EncodingConverter σ) (self : σ) : List Byte × σ :=
  let r := E.flush self BUFSIZE
  (r.output.take (BUFSIZE - r.outputBytesLeft), r.self)

/-! ## The iconv build (`#else` branch of `encconv.h`) -/

/-- What a call of `iconv` leaves behind: its return value (`-1` for `(size_t)(-1)`), the
counters `*inbytesleft` and `*outbytesleft`, the output buffer read from its first byte,
and the conversion descriptor. -/
structure IconvResult (ι : Type) where
  res : Int
  inbytesleft : Nat
  outbytesleft : Nat
  outbuf : List Byte
  cd : ι

/-- The iconv library, over the type `ι` of open conversion descriptors.
`iconv_open tocode fromcode` is `none` for `(iconv_t)(-1)`;
`iconv cd inbuf inbytesleft outbytesleft` is a converting call;
`iconv_flush cd outbytesleft` is `iconv(cd, NULL, NULL, &outbuf, &outbytesleft)`;
`iconv_reset cd` is `iconv(cd, NULL, NULL, NULL, NULL)`. -/
structure Iconv (ι : Type) where
  iconv_open : String → String → Option ι
  iconv : ι → List Byte → Nat → Nat → IconvResult ι
  iconv_flush : ι → Nat → IconvResult ι
  iconv_reset : ι → ι

/-- Data members of `EncodingConverter` in the iconv build; `cd_ = none` is
`(iconv_t)(-1)`. -/
structure StreamConverter (ι : Type) where
  fromEnc_ : String
  toEnc_ : String
  cd_ : Option ι

namespace StreamConverter

/-- Constructor `EncodingConverter(fromEnc, toEnc, opt)` of the iconv build. -/
def new {ι : Type} (L : Iconv ι) (fromEnc toEnc : String) (opt : Nat) : StreamConverter ι :=
  let tocode := toEnc
  let tocode := if opt &&& CONVERT_TRANSLITERATE ≠ 0 then tocode ++ "//TRANSLIT" else tocode
  let tocode := if opt &&& CONVERT_DISCARD_ILSEQ ≠ 0 then tocode ++ "//IGNORE" else tocode
  StreamConverter.mk fromEnc toEnc (L.iconv_open tocode fromEnc)

/-- Method `valid()` of the iconv build. -/
def valid {ι : Type} (self : StreamConverter ι) : Bool :=
  self.cd_.isSome

/-- Chunk primitive `convert` of the iconv build.  On the descriptor `(iconv_t)(-1)`
`iconv` fails and changes nothing. -/
def convert {ι : Type} (L : Iconv ι) (self : StreamConverter ι) (input : List Byte)
    (inputBytesLeft outputBytesLeft : Nat) : ChunkResult (StreamConverter ι) :=
  match self.cd_ with
  | none => ChunkResult.mk false inputBytesLeft outputBytesLeft [] self
  | some cd =>
    let r := L.iconv cd input inputBytesLeft outputBytesLeft
    ChunkResult.mk (r.res != -1) r.inbytesleft r.outbytesleft r.outbuf
      (StreamConverter.mk self.fromEnc_ self.toEnc_ (some r.cd))

/-- Primitive `flush` of the iconv build. -/
def flush {ι : Type} (L : Iconv ι) (self : StreamConverter ι) (outputBytesLeft : Nat) :
    FlushResult (StreamConverter ι) :=
  match self.cd_ with
  | none => FlushResult.mk false outputBytesLeft [] self
  | some cd =>
    let r := L.iconv_flush cd outputBytesLeft
    FlushResult.mk (r.res != -1) r.outbytesleft r.outbuf
      (StreamConverter.mk self.fromEnc_ self.toEnc_ (some r.cd))

/-- Method `reset()` of the iconv build. -/
def reset {ι : Type} (L : Iconv ι) (self : StreamConverter ι) : StreamConverter ι :=
  StreamConverter.mk self.fromEnc_ self.toEnc_ (self.cd_.map L.iconv_reset)

end StreamConverter

/-- The class of the iconv build.  There `create_converter_noabort` is the plain
`new EncodingConverter(...)`, which is never null. -/
def streamBackend {ι : Type} (L : Iconv ι) : EncodingConverter (StreamConverter ι) where
  create_converter_noabort := fun inenc outenc opt => some (StreamConverter.new L inenc outenc opt)
  valid := StreamConverter.valid
  convert := StreamConverter.convert L
  flush := StreamConverter.flush L
  reset := StreamConverter.reset L

/-! ## The MLang build (`_WIN32` branch of `encconv.h`) -/

/-- What `IMLangConvertCharset::DoConversion` leaves behind: the `HRESULT`, the sizes it
stored in `*pcSrcSize` and `*pcDstSize`, the destination buffer read from its first
byte, and the conversion object. -/
structure DoConversionResult (κ : Type) where
  hr : Int
  srcsize : Nat
  dstsize : Nat
  dst : List Byte
  conv : κ

/-- The Windows services used by the MLang build, over the type `κ` of conversion
objects.  `CoCreateInstance` tells whether the `IMultiLanguage2` object was obtained;
`MultiByteToWideChar` is the length it reports for a name; `GetCharsetInfo` is
`uiInternetEncoding` when the call succeeds; `CreateConvertCharset` gives the `HRESULT`
and the object stored in `conv_`; `MLCONVCHARF_NOBESTFITCHARS` is the flag of `mlang.h`. -/
structure MLang (κ : Type) where
  CoCreateInstance : Bool
  MultiByteToWideChar : String → Nat
  GetCharsetInfo : String → Option Nat
  CreateConvertCharset : Nat → Nat → Nat → Int × Option κ
  DoConversion : κ → List Byte → Nat → Nat → DoConversionResult κ
  Initialize : κ → Nat → Nat → Nat → κ
  MLCONVCHARF_NOBESTFITCHARS : Nat

/-- The constant `S_OK`. -/
def S_OK : Int := 0
/-- The constant `S_FALSE`. -/
def S_FALSE : Int := 1
/-- The test `FAILED(hr)`. -/
def FAILED (hr : Int) : Bool := decide (hr < 0)
/-- The constant `UINT_MAX`. -/
def UINT_MAX : Nat := 4294967295

/-- Equality test `_stricmp(a, b) == 0`. -/
def stricmp_eq (a b : String) : Bool :=
  a.data.map Char.toLower == b.data.map Char.toLower

/-- The digits at the head of a text, read in base ten onto `acc`. -/
def atoi_digits : List Char → Nat → Nat
  | c :: cs, acc => if c.isDigit then atoi_digits cs (acc * 10 + (c.toNat - 48)) else acc
  | [], acc => acc

/-- The C function `atoi`: leading white space, an optional sign, then digits. -/
def atoi (s : List Char) : Int :=
  match s.dropWhile Char.isWhitespace with
  | '-' :: t => - Int.ofNat (atoi_digits t 0)
  | '+' :: t => Int.ofNat (atoi_digits t 0)
  | t => Int.ofNat (atoi_digits t 0)

/-- Data members of `EncodingConverter` in the MLang build; `ml_ = false` and
`conv_ = none` are null pointers. -/
structure CharsetConverter (κ : Type) where
  fromEnc_ : String
  toEnc_ : String
  opt_ : Nat
  toCodePage_ : Nat
  fromCodePage_ : Nat
  ml_ : Bool
  conv_ : Option κ

namespace CharsetConverter

/-- The `do ... while (false)` block of `encNameToCodePage`, with the name it looks up.
`none` is the access violation of `ml_->GetCharsetInfo` through a null `ml_`. -/
def charsetInfoCodePage {κ : Type} (M : MLang κ) (ml_ : Bool) (encName : String) : Option Nat :=
  if M.MultiByteToWideChar encName = 0 then some 0
  else if !ml_ then none
  else
    match M.GetCharsetInfo encName with
    | none => some 0
    | some uiInternetEncoding => some uiInternetEncoding

/-- Method `encNameToCodePage`; `none` is an access violation. -/
def encNameToCodePage {κ : Type} (M : MLang κ) (ml_ : Bool) (encName : String) : Option Nat :=
  if stricmp_eq encName "UTF-16" || stricmp_eq encName "UTF-16BE" ||
      stricmp_eq encName "UCS-2" || stricmp_eq encName "UCS-2BE" ||
      stricmp_eq encName "UNICODEBIG" then
    charsetInfoCodePage M ml_ "unicodeFFFE"
  else if stricmp_eq encName "UTF-16LE" || stricmp_eq encName "UCS-2LE" ||
      stricmp_eq encName "UNICODELITTLE" then
    charsetInfoCodePage M ml_ "unicode"
  else
    match encName.data with
    | c0 :: c1 :: rest =>
      if c0.toUpper = 'C' ∧ c1.toUpper = 'P' then some ((atoi rest) % 4294967296).toNat
      else charsetInfoCodePage M ml_ encName
    | _ => charsetInfoCodePage M ml_ encName

/-- The conversion property computed in the constructor and in `reset`. -/
def convProp {κ : Type} (M : MLang κ) (opt : Nat) : Nat :=
  if opt &&& CONVERT_TRANSLITERATE ≠ 0 then 0 else M.MLCONVCHARF_NOBESTFITCHARS

/-- Constructor `EncodingConverter(fromEnc, toEnc, opt)` of the MLang build; `none` is
an access violation raised while it runs. -/
def new {κ : Type} (M : MLang κ) (fromEnc toEnc : String) (opt : Nat) :
    Option (CharsetConverter κ) :=
  let ml_ := M.CoCreateInstance
  match encNameToCodePage M ml_ toEnc with
  | none => none
  | some toCodePage_ =>
    match encNameToCodePage M ml_ fromEnc with
    | none => none
    | some fromCodePage_ =>
      if ml_ then
        let created := M.CreateConvertCharset fromCodePage_ toCodePage_ (convProp M opt)
        if created.1 ≠ S_OK then
          if created.1 = S_FALSE ∧ created.2.isNone = true then none
          else some (CharsetConverter.mk fromEnc toEnc opt toCodePage_ fromCodePage_ false none)
        else some (CharsetConverter.mk fromEnc toEnc opt toCodePage_ fromCodePage_ true created.2)
      else some (CharsetConverter.mk fromEnc toEnc opt toCodePage_ fromCodePage_ false none)

/-- Method `valid()` of the MLang build. -/
def valid {κ : Type} (self : CharsetConverter κ) : Bool :=
  self.ml_ && self.conv_.isSome && (self.toCodePage_ != 0) && (self.fromCodePage_ != 0)

/-- Chunk primitive `convert` of the MLang build.  The branch that calls
`DoConversion` needs `conv_`, which a valid converter has. -/
def convert {κ : Type} (M : MLang κ) (self : CharsetConverter κ) (input : List Byte)
    (inputBytesLeft outputBytesLeft : Nat) : ChunkResult (CharsetConverter κ) :=
  if self.toCodePage_ = self.fromCodePage_ then
    let bytesToCopy := min inputBytesLeft outputBytesLeft
    ChunkResult.mk true (inputBytesLeft - bytesToCopy) (outputBytesLeft - bytesToCopy)
      (input.take bytesToCopy) self
  else
    match self.conv_ with
    | none => ChunkResult.mk false inputBytesLeft outputBytesLeft [] self
    | some conv =>
      let srcsize := if inputBytesLeft > UINT_MAX then UINT_MAX else inputBytesLeft
      let dstsize := if outputBytesLeft > UINT_MAX then UINT_MAX else outputBytesLeft
      let d := M.DoConversion conv input srcsize dstsize
      let self := { self with conv_ := some d.conv }
      if FAILED d.hr then ChunkResult.mk false inputBytesLeft outputBytesLeft d.dst self
      else
        ChunkResult.mk true (inputBytesLeft - d.srcsize) (outputBytesLeft - d.dstsize) d.dst self

/-- Method `reset()` of the MLang build. -/
def reset {κ : Type} (M : MLang κ) (self : CharsetConverter κ) : CharsetConverter κ :=
  { self with
    conv_ := self.conv_.map
      (fun conv => M.Initialize conv self.fromCodePage_ self.toCodePage_ (convProp M self.opt_)) }

/-- Primitive `flush` of the MLang build: `reset(); return true;`. -/
def flush {κ : Type} (M : MLang κ) (self : CharsetConverter κ) (outputBytesLeft : Nat) :
    FlushResult (CharsetConverter κ) :=
  FlushResult.mk true outputBytesLeft [] (reset M self)

end CharsetConverter

/-- The class of the MLang build.  There `create_converter_noabort` turns an access
violation of the constructor into a null pointer. -/
def charsetBackend {κ : Type} (M : MLang κ) : EncodingConverter (CharsetConverter κ) where
  create_converter_noabort := CharsetConverter.new M
  valid := CharsetConverter.valid
  convert := CharsetConverter.convert M
  flush := CharsetConverter.flush M
  reset := CharsetConverter.reset M

/-! ## The NIF glue (`encconv.cpp`) -/

/-- What a NIF hands back: a term, the `badarg` exception of `enif_make_badarg`, or
nothing defined (a handle that is the address of no live converter was dereferenced). -/
inductive Ret where
  | term (t : Term)
  | badarg
  | undefined
  deriving DecidableEq, Repr

/-- The live converter objects, by address. -/
abbrev Heap (σ : Type) := List (Nat × σ)

/-- The object at an address, if one lives there. -/
def Heap.find {σ : Type} (heap : Heap σ) (addr : Nat) : Option σ :=
  (List.find? (fun e => e.1 == addr) heap).map (fun e => e.2)

/-- The heap after the object at an address was modified in place. -/
def Heap.store {σ : Type} (heap : Heap σ) (addr : Nat) (obj : σ) : Heap σ :=
  List.map (fun e => if e.1 == addr then (addr, obj) else e) heap

/-- The heap after `delete` of the object at an address. -/
def Heap.delete {σ : Type} (heap : Heap σ) (addr : Nat) : Heap σ :=
  List.filter (fun e => e.1 != addr) heap

/-- Outcome of a NIF call: what it hands back, the heap of converters afterwards, and
how many times it called `create_converter_noabort`. -/
structure Outcome (σ : Type) where
  ret : Ret
  heap : Heap σ
  created : Nat

/-- The term `{error, Message}`. -/
def error_tuple (msg : String) : Term :=
  Term.tuple2 (Term.atom "error") (enif_make_string msg)

/-- Message of the failure to construct a converter object. -/
def MSG_CANT_CREATE : String :=
  "Can't create a converter. Probably you haven't called initialize() yet."

/-- Message for a converter that is not valid. -/
def msg_unknown_encoding (inenc outenc : String) : String :=
  "Unknown encoding or conversion not supported: " ++ inenc ++ " or " ++ outenc

/-- Message for input left over without `CONVERT_DISCARD_ILSEQ`. -/
def MSG_INCOMPLETE : String := "Incomplete/invalid input."

/-- Message of a failed `string_to_binary`. -/
def MSG_NO_BINARY : String := "Unable to make binary."

/-- Message of a failed `parse_option_list`. -/
def MSG_UNKNOWN_OPTION : String := "Unknown option."

/-- Source function `convert_internal`.  The converter it creates is deleted before it
returns, so the heap is as before; `none` is a convert loop that ran out of fuel. -/
def convert_internal {σ : Type} (env : ErlNifEnv) (E : EncodingConverter σ) (fuel : Nat)
    (inp : List Byte) (inenc outenc : String) (opt : Nat) : Option Term :=
  match E.create_converter_noabort inenc outenc opt with
  | none => some (error_tuple MSG_CANT_CREATE)
  | some conv =>
    if !E.valid conv then some (error_tuple (msg_unknown_encoding inenc outenc))
    else
      match convert_str E fuel conv inp inp.length with
      | none => none
      | some c =>
        let inlen := c.inputBytesLeft
        let out := c.ret ++ (flush_str E c.self).1
        if inlen > 0 ∧ opt &&& CONVERT_DISCARD_ILSEQ = 0 then
          some (error_tuple MSG_INCOMPLETE)
        else
          match string_to_binary env out with
          | some ret => some (Term.tuple3 (Term.atom "ok") ret (enif_make_uint64 inlen))
          | none => some (error_tuple MSG_NO_BINARY)

/-- Source function `convert_binary_nif` (`convert_binary/3`). -/
def convert_binary_nif {σ : Type} (env : ErlNifEnv) (E : EncodingConverter σ) (fuel : Nat)
    (heap : Heap σ) (argv0 argv1 argv2 : Term) : Option (Outcome σ) :=
  match binary_to_string argv0, enif_get_string argv1 64, enif_get_string argv2 64 with
  | some inp, some inenc, some outenc =>
    (convert_internal env E fuel inp inenc outenc CONVERT_DISCARD_ILSEQ).map
      (fun t => Outcome.mk (Ret.term t) heap 1)
  | _, _, _ => some (Outcome.mk Ret.badarg heap 0)

/-- Source function `convert_binary_opt_nif` (`convert_binary/4`). -/
def convert_binary_opt_nif {σ : Type} (env : ErlNifEnv) (E : EncodingConverter σ) (fuel : Nat)
    (heap : Heap σ) (argv0 argv1 argv2 argv3 : Term) : Option (Outcome σ) :=
  match binary_to_string argv0, enif_get_string argv1 64, enif_get_string argv2 64 with
  | some inp, some inenc, some outenc =>
    match parse_option_list argv3 with
    | none => some (Outcome.mk (Ret.term (error_tuple MSG_UNKNOWN_OPTION)) heap 0)
    | some opt =>
      (convert_internal env E fuel inp inenc outenc opt).map
        (fun t => Outcome.mk (Ret.term t) heap 1)
  | _, _, _ => some (Outcome.mk Ret.badarg heap 0)

/-- Source function `create_converter_nif`; `addr` is the address at which `new` places
the converter object. -/
def create_converter_nif {σ : Type} (E : EncodingConverter σ) (heap : Heap σ) (addr : Nat)
    (argv0 argv1 argv2 : Term) : Outcome σ :=
  match enif_get_string argv0 64, enif_get_string argv1 64 with
  | some inenc, some outenc =>
    match parse_option_list argv2 with
    | none => Outcome.mk (Ret.term (error_tuple MSG_UNKNOWN_OPTION)) heap 0
    | some opt =>
      match E.create_converter_noabort inenc outenc opt with
      | none => Outcome.mk (Ret.term (error_tuple MSG_CANT_CREATE)) heap 1
      | some conv =>
        if !E.valid conv then
          Outcome.mk (Ret.term (error_tuple (msg_unknown_encoding inenc outenc))) heap 1
        else
          Outcome.mk (Ret.term (Term.tuple2 (Term.atom "ok") (enif_make_uint64 addr)))
            ((addr, conv) :: heap) 1
  | _, _ => Outcome.mk Ret.badarg heap 0

/-- Source function `destroy_converter_nif`. -/
def destroy_converter_nif {σ : Type} (heap : Heap σ) (argv0 : Term) : Outcome σ :=
  match enif_get_uint64 argv0 with
  | none => Outcome.mk Ret.badarg heap 0
  | some opaq =>
    if opaq = 0 then Outcome.mk Ret.badarg heap 0
    else
      match heap.find opaq with
      | none => Outcome.mk Ret.undefined heap 0
      | some _ => Outcome.mk (Ret.term (Term.atom "ok")) (heap.delete opaq) 0

/-- Source function `do_convert_nif`. -/
def do_convert_nif {σ : Type} (env : ErlNifEnv) (E : EncodingConverter σ) (fuel : Nat)
    (heap : Heap σ) (argv0 argv1 : Term) : Option (Outcome σ) :=
  match binary_to_string argv0, enif_get_uint64 argv1 with
  | some inp, some opaq =>
    if opaq = 0 then some (Outcome.mk Ret.badarg heap 0)
    else
      match heap.find opaq with
      | none => some (Outcome.mk Ret.undefined heap 0)
      | some conv =>
        match convert_str E fuel conv inp inp.length with
        | none => none
        | some c =>
          let inlen := c.inputBytesLeft
          let out := c.ret
          match string_to_binary env out with
          | some ret =>
            some (Outcome.mk
              (Ret.term (Term.tuple3 (Term.atom "ok") ret (enif_make_uint64 inlen)))
              (heap.store opaq c.self) 0)
          | none =>
            some (Outcome.mk (Ret.term (error_tuple MSG_NO_BINARY)) (heap.store opaq c.self) 0)
  | _, _ => some (Outcome.mk Ret.badarg heap 0)

/-- Source function `flush_converter_nif`. -/
def flush_converter_nif {σ : Type} (env : ErlNifEnv) (E : EncodingConverter σ)
    (heap : Heap σ) (argv0 : Term) : Outcome σ :=
  match enif_get_uint64 argv0 with
  | none => Outcome.mk Ret.badarg heap 0
  | some opaq =>
    if opaq = 0 then Outcome.mk Ret.badarg heap 0
    else
      match heap.find opaq with
      | none => Outcome.mk Ret.undefined heap 0
      | some conv =>
        let f := flush_str E conv
        match string_to_binary env f.1 with
        | some ret =>
          Outcome.mk (Ret.term (Term.tuple2 (Term.atom "ok") ret)) (heap.store opaq f.2) 0
        | none => Outcome.mk (Ret.term (error_tuple MSG_NO_BINARY)) (heap.store opaq f.2) 0

/-- Source function `reset_converter_nif`. -/
def reset_converter_nif {σ : Type} (E : EncodingConverter σ) (heap : Heap σ) (argv0 : Term) :
    Outcome σ :=
  match enif_get_uint64 argv0 with
  | none => Outcome.mk Ret.badarg heap 0
  | some opaq =>
    if opaq = 0 then Outcome.mk Ret.badarg heap 0
    else
      match heap.find opaq with
      | none => Outcome.mk Ret.undefined heap 0
      | some conv => Outcome.mk (Ret.term (Term.atom "ok")) (heap.store opaq (E.reset conv)) 0

/-! ## Small instances of the outside services, used to evaluate the code -/

/-- An MLang service for examples: COM is available, every pair of code pages has a
conversion object, and `DoConversion` copies as many bytes as fit. -/
def demoMLang : MLang Unit where
  CoCreateInstance := true
  MultiByteToWideChar := fun s => s.data.length + 1
  GetCharsetInfo := fun s => if s = "utf-8" then some 65001 else none
  CreateConvertCharset := fun _ _ _ => (S_OK, some ())
  DoConversion := fun c inp src dst =>
    DoConversionResult.mk 0 (min src dst) (min src dst) (inp.take (min src dst)) c
  Initialize := fun c _ _ _ => c
  MLCONVCHARF_NOBESTFITCHARS := 16

/-- A runtime for examples in which every binary can be allocated. -/
def demoEnv : ErlNifEnv := ErlNifEnv.mk (fun _ => true)

/-- Conversion to 7-bit ASCII for examples: bytes below 128 are copied while the output
has room (`-1` when it has none), a byte from 128 on stops the conversion with `-1`, or
is skipped when `ignore` is set.  The result is the return value, the bytes not
consumed, and the bytes written. -/
def ascii_scan (ignore : Bool) : List Byte → Nat → List Byte → Int × Nat × List Byte
  | [], _, out => (0, 0, out)
  | b :: bs, outleft, out =>
    if b < 128 then
      if outleft = 0 then (-1, (b :: bs).length, out)
      else ascii_scan ignore bs (outleft - 1) (out ++ [b])
    else if ignore then ascii_scan ignore bs outleft out
    else (-1, (b :: bs).length, out)

/-- An iconv library for examples: it knows the conversion from `UTF-8` to `ASCII`,
plain or with `//IGNORE`; the descriptor is the ignore flag. -/
def asciiIconv : Iconv Bool where
  iconv_open := fun tocode fromcode =>
    if fromcode = "UTF-8" ∧ tocode = "ASCII" then some false
    else if fromcode = "UTF-8" ∧ tocode = "ASCII//IGNORE" then some true
    else none
  iconv := fun cd inbuf inbytesleft outbytesleft =>
    let r := ascii_scan cd (inbuf.take inbytesleft) outbytesleft []
    IconvResult.mk r.1 r.2.1 (outbytesleft - r.2.2.length) r.2.2 cd
  iconv_flush := fun cd outbytesleft => IconvResult.mk 0 0 outbytesleft [] cd
  iconv_reset := fun cd => cd

/-- The bytes of `café` in UTF-8. -/
def cafe : List Byte := [99, 97, 102, 195, 169]

/-- The converter that the MLang build constructs for `CP65001` to `CP65001`: both code
pages are 65001, so its chunk primitive takes the byte-copy path. -/
def demoConv : CharsetConverter Unit :=
  CharsetConverter.mk "CP65001" "CP65001" 0 65001 65001 true (some ())

/-- An input one byte longer than the buffer: 1024 zero bytes, then a one. -/
def longInput : List Byte := List.replicate 1024 0 ++ [1]

/-- The MLang service of `demoMLang` on a thread where COM was not initialized:
`CoCreateInstance` fails. -/
def noComMLang : MLang Unit :=
  { demoMLang with CoCreateInstance := false }

/-- An iconv library for examples whose converting call reports success without
consuming or writing anything. -/
def stuckIconv : Iconv Unit where
  iconv_open := fun _ _ => some ()
  iconv := fun cd _ inbytesleft outbytesleft => IconvResult.mk 0 inbytesleft outbytesleft [] cd
  iconv_flush := fun cd outbytesleft => IconvResult.mk 0 0 outbytesleft [] cd
  iconv_reset := fun cd => cd

/-! ## Vocabulary of the statements -/

/-- Every chunk call that reports success leaves no input, or less input than it was
handed: with input remaining, a successful call consumes at least one byte. -/
def Progress {σ : Type} (E : EncodingConverter σ) (input : List Byte) : Prop :=
  ∀ (self : σ) (inputBytesLeft : Nat),
    (E.convert self input inputBytesLeft BUFSIZE).ok = true →
      (E.convert self input inputBytesLeft BUFSIZE).inputBytesLeft = 0 ∨
      (E.convert self input inputBytesLeft BUFSIZE).inputBytesLeft < inputBytesLeft

/-- The bytes the loop appends after a successful chunk call:
`ret.append(buf, sizeof(buf)-buflen)`. -/
def appended {σ : Type} (r : ChunkResult σ) : List Byte :=
  r.output.take (BUFSIZE - r.outputBytesLeft)

/-- The concatenation, in call order, of the bytes appended after the chunk calls that
reported success. -/
def ok_outputs {σ : Type} : List (ChunkCall σ) → List Byte
  | [] => []
  | k :: ks => (if k.result.ok = true then appended k.result else []) ++ ok_outputs ks

/-- The elements of a list term: the heads of its successive list cells. -/
def list_elements : Term → List Term
  | .cons head tail => head :: list_elements tail
  | _ => []

/-- The flags named by a list of option tokens: `CONVERT_TRANSLITERATE` if `translit`
occurs, or-ed with `CONVERT_DISCARD_ILSEQ` if `ignore` occurs. -/
def option_flags (tokens : List Term) : Nat :=
  (if Term.atom "translit" ∈ tokens then CONVERT_TRANSLITERATE else CONVERT_NONE) |||
  (if Term.atom "ignore" ∈ tokens then CONVERT_DISCARD_ILSEQ else CONVERT_NONE)

/-! ## The convert loop: general facts -/

theorem convert_loop_acc {σ : Type} (E : EncodingConverter σ) (input : List Byte) :
    ∀ (fuel : Nat) (self : σ) (left : Nat) (ret : List Byte) (calls : List (ChunkCall σ)),
      convert_loop E input fuel self left ret calls =
        (convert_loop E input fuel self left [] []).map
          (fun c => ConvertResult.mk (ret ++ c.ret) c.inputBytesLeft c.self (calls ++ c.calls)) := by
  intro fuel
  induction fuel with
  | zero => intro self left ret calls; simp [convert_loop]
  | succ n ih =>
    intro self left ret calls
    simp only [convert_loop]
    by_cases hok : (E.convert self input left BUFSIZE).ok = true
    · by_cases hleft : (E.convert self input left BUFSIZE).inputBytesLeft > 0
      · simp only [hok, hleft, Bool.not_true, Bool.false_eq_true, if_false, if_true]
        rw [ih _ _ (ret ++ _) (calls ++ _), ih _ _ ([] ++ _) ([] ++ _)]
        simp [Option.map_map, Function.comp_def, List.append_assoc]
      · simp [hok, hleft]
    · simp [hok]

theorem convert_loop_terminates {σ : Type} (E : EncodingConverter σ) (input : List Byte)
    (hprog : Progress E input) :
    ∀ (fuel : Nat) (self : σ) (left : Nat) (ret : List Byte) (calls : List (ChunkCall σ)),
      left < fuel → ∃ c, convert_loop E input fuel self left ret calls = some c := by
  intro fuel
  induction fuel with
  | zero => intro self left ret calls h; omega
  | succ n ih =>
    intro self left ret calls h
    simp only [convert_loop]
    by_cases hok : (E.convert self input left BUFSIZE).ok = true
    · by_cases hleft : (E.convert self input left BUFSIZE).inputBytesLeft > 0
      · simp only [hok, hleft, Bool.not_true, Bool.false_eq_true, if_false, if_true]
        apply ih
        rcases hprog self left hok with h0 | hlt
        · omega
        · omega
      · simp [hok, hleft]
    · simp [hok]

theorem convert_str_terminates {σ : Type} (E : EncodingConverter σ) (input : List Byte)
    (hprog : Progress E input) (self : σ) (left : Nat) :
    ∃ c, convert_str E (left + 1) self input left = some c :=
  convert_loop_terminates E input hprog (left + 1) self left [] [] (Nat.lt_succ_self left)

/-! ## One-shot conversion (`convert_internal`) -/

theorem error_tuple_ne_ok (msg : String) (a b : Term) :
    error_tuple msg ≠ Term.tuple3 (Term.atom "ok") a b := by
  simp [error_tuple]

/-- C1: for a converter that was created and is valid, `convert_internal` returns
`{error, "Incomplete/invalid input."}` exactly when the convert loop left input bytes
unconsumed (`inlen > 0`) and `CONVERT_DISCARD_ILSEQ` is not among the options; that term
carries no output bytes.  In every other case it returns `{ok, Output, inlen}` with the
loop output followed by the flush output, unless the binary cannot be allocated.  It
returns whenever the loop leaves, and the loop leaves within `length + 1` chunk calls
when every successful chunk call with input remaining consumes a byte. -/
theorem convert_internal_incomplete_iff {σ : Type} (env : ErlNifEnv) (E : EncodingConverter σ)
    (inp : List Byte) (inenc outenc : String) (opt : Nat) (conv : σ)
    (hcreate : E.create_converter_noabort inenc outenc opt = some conv)
    (hvalid : E.valid conv = true) :
    (∀ fuel, convert_internal env E fuel inp inenc outenc opt = none ↔
        convert_str E fuel conv inp inp.length = none) ∧
    (∀ fuel c, convert_str E fuel conv inp inp.length = some c →
      (convert_internal env E fuel inp inenc outenc opt = some (error_tuple MSG_INCOMPLETE) ↔
        (0 < c.inputBytesLeft ∧ opt &&& CONVERT_DISCARD_ILSEQ = 0)) ∧
      (¬ (0 < c.inputBytesLeft ∧ opt &&& CONVERT_DISCARD_ILSEQ = 0) →
        convert_internal env E fuel inp inenc outenc opt =
          some (if env.enif_alloc_binary (c.ret ++ (flush_str E c.self).1).length = true
            then Term.tuple3 (Term.atom "ok") (Term.binary (c.ret ++ (flush_str E c.self).1))
              (enif_make_uint64 c.inputBytesLeft)
            else error_tuple MSG_NO_BINARY))) ∧
    (Progress E inp → ∃ c, convert_str E (inp.length + 1) conv inp inp.length = some c) := by
  refine ⟨?_, ?_, ?_⟩
  · intro fuel
    unfold convert_internal
    simp only [hcreate, hvalid, Bool.not_true, Bool.false_eq_true, if_false]
    cases hc : convert_str E fuel conv inp inp.length with
    | none => simp
    | some c =>
      simp only [false_iff]
      split_ifs
      · simp
      · cases string_to_binary env (c.ret ++ (flush_str E c.self).1) <;> simp
  · intro fuel c hc
    have hne : error_tuple MSG_NO_BINARY ≠ error_tuple MSG_INCOMPLETE := by decide
    unfold convert_internal
    simp only [hcreate, hvalid, hc, Bool.not_true, Bool.false_eq_true, if_false]
    by_cases hcond : 0 < c.inputBytesLeft ∧ opt &&& CONVERT_DISCARD_ILSEQ = 0
    · simp [hcond]
    · have hcond2 : ¬ (c.inputBytesLeft > 0 ∧ opt &&& CONVERT_DISCARD_ILSEQ = 0) := hcond
      simp only [hcond2, if_false, hcond, not_false_eq_true, forall_const, iff_false]
      unfold string_to_binary
      by_cases ha : env.enif_alloc_binary (c.ret ++ (flush_str E c.self).1).length = true
      · simp only [ha, Bool.not_true, Bool.false_eq_true, if_false, if_true]
        refine ⟨?_, trivial⟩
        intro h
        exact error_tuple_ne_ok _ _ _ (Option.some.inj h).symm
      · simp only [ha, Bool.not_false, if_true, if_false, Bool.not_eq_true] at *
        simp only [ha, Bool.not_false, if_true, Bool.false_eq_true, if_false]
        refine ⟨?_, trivial⟩
        intro h
        exact hne (Option.some.inj h)
  · intro hprog
    exact convert_str_terminates E inp hprog conv inp.length


theorem convert_internal_incomplete_iff_witness :
    (streamBackend asciiIconv).create_converter_noabort "UTF-8" "ASCII" 0 =
        some (StreamConverter.mk "UTF-8" "ASCII" (some false)) ∧
    (streamBackend asciiIconv).valid (StreamConverter.mk "UTF-8" "ASCII" (some false)) = true ∧
    convert_internal demoEnv (streamBackend asciiIconv) 1 cafe "UTF-8" "ASCII" 0 =
        some (error_tuple MSG_INCOMPLETE) ∧
    convert_internal demoEnv (streamBackend asciiIconv) 1 cafe "UTF-8" "ASCII" 2 =
        some (Term.tuple3 (Term.atom "ok") (Term.binary [99, 97, 102]) (Term.integer 0)) := by
  refine ⟨rfl, rfl, ?_, by decide⟩
  have h := (convert_internal_incomplete_iff demoEnv (streamBackend asciiIconv) cafe
    "UTF-8" "ASCII" 0 (StreamConverter.mk "UTF-8" "ASCII" (some false)) rfl rfl).2.1 1 _ rfl
  exact h.1.mpr (by decide)

/-- C2, as stated, fails: converting the one byte `A` from `CP65001` to `CP65001` consumes
the whole input (one byte), and the count in the ok tuple is 0, not 1. -/
theorem convert_internal_count_counterexample :
    (charsetBackend demoMLang).create_converter_noabort "CP65001" "CP65001" 0 = some demoConv ∧
    (convert_str (charsetBackend demoMLang) 1 demoConv [65] 1).map
        (fun c => ([65] : List Byte).length - c.inputBytesLeft) = some 1 ∧
    convert_internal demoEnv (charsetBackend demoMLang) 1 [65] "CP65001" "CP65001" 0 =
        some (Term.tuple3 (Term.atom "ok") (Term.binary [65]) (enif_make_uint64 0)) ∧
    enif_make_uint64 0 ≠ enif_make_uint64 ([65] : List Byte).length := by
  refine ⟨rfl, by decide, by decide, by decide⟩

/-- C2 (amended): when `convert_internal` returns `{ok, Output, Count}`, `Count` is the
value of `inputBytesLeft` after the convert loop, that is the number of input bytes the
loop left unconsumed, and `Output` is the loop output followed by the flush output; so
whenever the loop consumed the whole input, `Count` is 0. -/
theorem convert_internal_count_is_bytes_left {σ : Type} (env : ErlNifEnv)
    (E : EncodingConverter σ) (fuel : Nat) (inp : List Byte) (inenc outenc : String) (opt : Nat)
    (out n : Term)
    (hok : convert_internal env E fuel inp inenc outenc opt =
      some (Term.tuple3 (Term.atom "ok") out n)) :
    ∃ conv c, E.create_converter_noabort inenc outenc opt = some conv ∧
      convert_str E fuel conv inp inp.length = some c ∧
      n = enif_make_uint64 c.inputBytesLeft ∧
      out = Term.binary (c.ret ++ (flush_str E c.self).1) ∧
      (c.inputBytesLeft = 0 → n = Term.integer 0) := by
  unfold convert_internal at hok
  cases hcreate : E.create_converter_noabort inenc outenc opt with
  | none => simp [hcreate, error_tuple] at hok
  | some conv =>
    simp only [hcreate] at hok
    by_cases hvalid : E.valid conv = true
    · simp only [hvalid, Bool.not_true, Bool.false_eq_true, if_false] at hok
      cases hc : convert_str E fuel conv inp inp.length with
      | none => simp [hc] at hok
      | some c =>
        simp only [hc] at hok
        split_ifs at hok with hcond
        · simp [error_tuple] at hok
        · unfold string_to_binary at hok
          split_ifs at hok with ha
          · simp [error_tuple] at hok
          · simp only [Option.some.injEq, Term.tuple3.injEq, true_and] at hok
            refine ⟨conv, c, rfl, hc, hok.2.symm, hok.1.symm, ?_⟩
            intro h0
            rw [← hok.2, h0]
            rfl
    · simp [hvalid, error_tuple] at hok

theorem convert_internal_count_is_bytes_left_witness :
    convert_internal demoEnv (charsetBackend demoMLang) 1 [65] "CP65001" "CP65001" 0 =
        some (Term.tuple3 (Term.atom "ok") (Term.binary [65]) (Term.integer 0)) ∧
    ∃ conv c, (charsetBackend demoMLang).create_converter_noabort "CP65001" "CP65001" 0 =
        some conv ∧
      convert_str (charsetBackend demoMLang) 1 conv [65] ([65] : List Byte).length = some c ∧
      Term.integer 0 = enif_make_uint64 c.inputBytesLeft ∧
      Term.binary [65] = Term.binary (c.ret ++ (flush_str (charsetBackend demoMLang) c.self).1) ∧
      (c.inputBytesLeft = 0 → Term.integer 0 = Term.integer 0) :=
  ⟨by decide, convert_internal_count_is_bytes_left demoEnv (charsetBackend demoMLang) 1 [65]
    "CP65001" "CP65001" 0 (Term.binary [65]) (Term.integer 0) (by decide)⟩

/-! ## The byte-copy path and inputs longer than the buffer -/

set_option maxRecDepth 100000 in
/-- C3 (code bug): with the same code page on both sides the chunk primitive copies
bytes, yet for the 1025-byte input `longInput` (1024 zeros, then a one) the one-shot
conversion returns 1025 zeros: the last byte of the output is the first byte of the
input, not its last byte. -/
theorem convert_internal_same_encoding_long_input :
    (charsetBackend demoMLang).create_converter_noabort "CP65001" "CP65001" 0 = some demoConv ∧
    demoConv.toCodePage_ = demoConv.fromCodePage_ ∧
    convert_internal demoEnv (charsetBackend demoMLang) 2 longInput "CP65001" "CP65001" 0 =
      some (Term.tuple3 (Term.atom "ok") (Term.binary (List.replicate 1025 0))
        (Term.integer 0)) ∧
    List.replicate 1025 0 ≠ longInput := by
  refine ⟨rfl, rfl, by decide, by decide⟩

set_option maxRecDepth 100000 in
/-- C4 (code bug): on the 1025-byte input `longInput` the loop makes two chunk calls.  Both
are handed the pointer to the first input byte; the second, with one byte left, reads
and appends `input[0..1) = [0]`, whereas the residual slice `input[1024..]` is `[1]`. -/
theorem convert_str_second_chunk_rewinds :
    (convert_str (charsetBackend demoMLang) 2 demoConv longInput 1025).map
        (fun c => c.calls.map (fun k => (k.inputBytesLeft, appended k.result))) =
      some [(1025, List.replicate 1024 0), (1, [0])] ∧
    (convert_str (charsetBackend demoMLang) 2 demoConv longInput 1025).map
        (fun c => c.calls.map (fun k => decide (k.input = longInput))) =
      some [true, true] ∧
    longInput.take 1 = [0] ∧
    longInput.drop 1024 = [1] := by
  refine ⟨by decide, by decide, by decide, by decide⟩

/-! ## Conversion through a handle (`do_convert_nif`) -/

theorem appended_length_le {σ : Type} (r : ChunkResult σ) : (appended r).length ≤ BUFSIZE := by
  unfold appended
  rw [List.length_take]
  omega

theorem convert_loop_length_le {σ : Type} (E : EncodingConverter σ) (input : List Byte) :
    ∀ (fuel : Nat) (self : σ) (left : Nat) (ret : List Byte) (calls : List (ChunkCall σ))
      (c : ConvertResult σ), convert_loop E input fuel self left ret calls = some c →
      c.ret.length + BUFSIZE * calls.length ≤ ret.length + BUFSIZE * c.calls.length ∧
      calls.length < c.calls.length := by
  intro fuel
  induction fuel with
  | zero => intro self left ret calls c h; simp [convert_loop] at h
  | succ n ih =>
    intro self left ret calls c h
    simp only [convert_loop] at h
    by_cases hok : (E.convert self input left BUFSIZE).ok = true
    · have ha := appended_length_le (E.convert self input left BUFSIZE)
      unfold appended at ha
      by_cases hleft : (E.convert self input left BUFSIZE).inputBytesLeft > 0
      · simp only [hok, hleft, Bool.not_true, Bool.false_eq_true, if_false, if_true] at h
        have h2 := ih _ _ _ _ c h
        simp only [List.length_append, List.length_singleton] at h2
        constructor
        · have := h2.1
          rw [Nat.mul_add] at this
          omega
        · omega
      · simp only [hok, hleft, Bool.not_true, Bool.false_eq_true, if_false, Option.some.injEq] at h
        subst h
        simp only [List.length_append, List.length_singleton]
        constructor
        · rw [Nat.mul_add]; omega
        · omega
    · simp only [hok, Bool.not_false, if_true, Option.some.injEq] at h
      subst h
      simp only [List.length_append, List.length_singleton]
      constructor
      · rw [Nat.mul_add]; omega
      · omega

set_option maxRecDepth 100000 in
/-- C5, as stated, fails: through the handle 7 of a byte-copying converter, the
1025-byte input `longInput` is converted with two chunk calls and the output has 1025
bytes, more than the 1024 of one buffer. -/
theorem do_convert_nif_output_exceeds_buffer :
    (do_convert_nif demoEnv (charsetBackend demoMLang) 2 [(7, demoConv)]
        (Term.binary longInput) (Term.integer 7)).map (fun o => o.ret) =
      some (Ret.term (Term.tuple3 (Term.atom "ok") (Term.binary (List.replicate 1025 0))
        (Term.integer 0))) ∧
    (convert_str (charsetBackend demoMLang) 2 demoConv longInput longInput.length).map
        (fun c => c.calls.length) = some 2 ∧
    BUFSIZE < (List.replicate 1025 (0 : Byte)).length := by
  refine ⟨by decide, by decide, by decide⟩

/-- C5 (amended): for a binary input and a non-zero handle of a live converter,
`do_convert_nif` runs the convenience convert loop, the same one `convert_internal` runs,
without the flush and without the leftover-input check: it returns the loop output with
the loop's final `inputBytesLeft` (or the allocation error) and leaves the converter as
the loop left it.  The loop makes one chunk call or more, each with the 1024-byte buffer,
so the output has at most 1024 bytes per chunk call made. -/
theorem do_convert_nif_runs_convert_loop {σ : Type} (env : ErlNifEnv) (E : EncodingConverter σ)
    (fuel : Nat) (heap : Heap σ) (argv0 argv1 : Term) (inp : List Byte) (opaq : Nat) (conv : σ)
    (hbin : binary_to_string argv0 = some inp) (hget : enif_get_uint64 argv1 = some opaq)
    (hnonzero : opaq ≠ 0) (hfind : heap.find opaq = some conv) :
    do_convert_nif env E fuel heap argv0 argv1 =
      (convert_str E fuel conv inp inp.length).map (fun c =>
        Outcome.mk
          (Ret.term (if env.enif_alloc_binary c.ret.length = true
            then Term.tuple3 (Term.atom "ok") (Term.binary c.ret)
              (enif_make_uint64 c.inputBytesLeft)
            else error_tuple MSG_NO_BINARY))
          (heap.store opaq c.self) 0) ∧
    (∀ c, convert_str E fuel conv inp inp.length = some c →
      1 ≤ c.calls.length ∧ c.ret.length ≤ BUFSIZE * c.calls.length) := by
  constructor
  · unfold do_convert_nif
    simp only [hbin, hget, hnonzero, if_false, hfind]
    cases hc : convert_str E fuel conv inp inp.length with
    | none => rfl
    | some c =>
      simp only [Option.map_some']
      unfold string_to_binary
      by_cases ha : env.enif_alloc_binary c.ret.length = true
      · simp [ha]
      · simp [ha]
  · intro c hc
    have h := convert_loop_length_le E inp fuel conv inp.length [] [] c hc
    simp only [List.length_nil, Nat.mul_zero, Nat.add_zero, Nat.zero_add] at h
    omega

theorem do_convert_nif_runs_convert_loop_witness :
    binary_to_string (Term.binary [65]) = some [65] ∧
    enif_get_uint64 (Term.integer 7) = some 7 ∧
    (7 : Nat) ≠ 0 ∧
    Heap.find [(7, demoConv)] 7 = some demoConv ∧
    do_convert_nif demoEnv (charsetBackend demoMLang) 1 [(7, demoConv)] (Term.binary [65])
        (Term.integer 7) =
      (convert_str (charsetBackend demoMLang) 1 demoConv [65] ([65] : List Byte).length).map
        (fun c => Outcome.mk
          (Ret.term (if demoEnv.enif_alloc_binary c.ret.length = true
            then Term.tuple3 (Term.atom "ok") (Term.binary c.ret)
              (enif_make_uint64 c.inputBytesLeft)
            else error_tuple MSG_NO_BINARY))
          (Heap.store [(7, demoConv)] 7 c.self) 0) ∧
    (∀ c, convert_str (charsetBackend demoMLang) 1 demoConv [65] ([65] : List Byte).length =
        some c → 1 ≤ c.calls.length ∧ c.ret.length ≤ BUFSIZE * c.calls.length) :=
  ⟨rfl, by decide, by decide, rfl,
    do_convert_nif_runs_convert_loop demoEnv (charsetBackend demoMLang) 1 [(7, demoConv)]
      (Term.binary [65]) (Term.integer 7) [65] 7 demoConv rfl (by decide) (by decide) rfl⟩

/-! ## Option lists (`parse_option_list`) -/

theorem enif_get_atom_some (t : Term) (size : Nat) (s : String)
    (h : enif_get_atom t size = some s) : t = Term.atom s := by
  unfold enif_get_atom at h
  split at h
  · split_ifs at h
    simp only [Option.some.injEq] at h
    rw [h]
  · simp at h

theorem option_flags_translit (tokens : List Term) (opt : Nat) :
    (opt ||| CONVERT_TRANSLITERATE) ||| option_flags tokens =
      opt ||| option_flags (Term.atom "translit" :: tokens) := by
  have hne : Term.atom "ignore" ≠ Term.atom "translit" := by decide
  unfold option_flags
  simp only [List.mem_cons, true_or, if_true, hne, false_or]
  rw [Nat.lor_assoc, ← Nat.lor_assoc CONVERT_TRANSLITERATE]
  congr 2
  split_ifs <;> decide

theorem option_flags_ignore (tokens : List Term) (opt : Nat) :
    (opt ||| CONVERT_DISCARD_ILSEQ) ||| option_flags tokens =
      opt ||| option_flags (Term.atom "ignore" :: tokens) := by
  have hne : Term.atom "translit" ≠ Term.atom "ignore" := by decide
  unfold option_flags
  simp only [List.mem_cons, true_or, if_true, hne, false_or]
  rw [Nat.lor_assoc, ← Nat.lor_assoc CONVERT_DISCARD_ILSEQ,
    Nat.lor_comm CONVERT_DISCARD_ILSEQ, Nat.lor_assoc]
  congr 2
  split_ifs <;> decide

theorem parse_option_cells_eq (lst : Term) :
    ∀ opt : Nat, parse_option_cells lst opt =
      if (∀ e ∈ list_elements lst, e = Term.atom "translit" ∨ e = Term.atom "ignore")
      then some (opt ||| option_flags (list_elements lst)) else none := by
  induction lst with
  | cons head tail _ ih =>
    intro opt
    simp only [parse_option_cells, list_elements, List.mem_cons, forall_eq_or_imp]
    cases hget : enif_get_atom head 32 with
    | none =>
      have hnot : ¬ (head = Term.atom "translit" ∨ head = Term.atom "ignore") := by
        intro h
        rcases h with h | h
        · subst h; revert hget; decide
        · subst h; revert hget; decide
      simp [hnot]
    | some optstr =>
      have hhead := enif_get_atom_some head 32 optstr hget
      subst hhead
      by_cases ht : optstr = "translit"
      · subst ht
        simp only [if_true, true_or, true_and]
        rw [ih]
        split_ifs
        · rw [option_flags_translit]
        · rfl
      · by_cases hi : optstr = "ignore"
        · subst hi
          simp only [ht, if_false, if_true, or_true, true_and]
          rw [ih]
          split_ifs
          · rw [option_flags_ignore]
          · rfl
        · simp [ht, hi]
  | atom name => intro opt; simp [parse_option_cells, list_elements, option_flags, CONVERT_NONE]
  | integer n => intro opt; simp [parse_option_cells, list_elements, option_flags, CONVERT_NONE]
  | binary bytes => intro opt; simp [parse_option_cells, list_elements, option_flags, CONVERT_NONE]
  | nil => intro opt; simp [parse_option_cells, list_elements, option_flags, CONVERT_NONE]
  | tuple2 a b _ _ => intro opt; simp [parse_option_cells, list_elements, option_flags, CONVERT_NONE]
  | tuple3 a b c _ _ _ =>
    intro opt; simp [parse_option_cells, list_elements, option_flags, CONVERT_NONE]



/-- C6: `parse_option_list` rejects a term that is not a list; on a list it succeeds
exactly when every element is the atom `translit` or the atom `ignore`, and then the
option set is the bitwise or of `CONVERT_TRANSLITERATE` (1) if `translit` occurs and
`CONVERT_DISCARD_ILSEQ` (2) if `ignore` occurs, so the empty list gives `CONVERT_NONE` and
two lists with the same elements, in any order and number, give the same set.  When it
fails, `create_converter_nif` and `convert_binary_opt_nif` return without having called
`create_converter_noabort`, with the heap unchanged: `{error, "Unknown option."}` when
the other arguments decode. -/
theorem parse_option_list_spec :
    (∀ lst, enif_is_list lst = false → parse_option_list lst = none) ∧
    (∀ lst, enif_is_list lst = true →
      ((parse_option_list lst).isSome = true ↔
        ∀ e ∈ list_elements lst, e = Term.atom "translit" ∨ e = Term.atom "ignore")) ∧
    (∀ lst opt, parse_option_list lst = some opt → opt = option_flags (list_elements lst)) ∧
    parse_option_list Term.nil = some CONVERT_NONE ∧
    (∀ lst lst', enif_is_list lst = true → enif_is_list lst' = true →
      (∀ e, e ∈ list_elements lst ↔ e ∈ list_elements lst') →
      parse_option_list lst = parse_option_list lst') ∧
    (∀ {σ : Type} (E : EncodingConverter σ) (heap : Heap σ) (addr : Nat) (argv0 argv1 argv2 : Term),
      parse_option_list argv2 = none →
        (create_converter_nif E heap addr argv0 argv1 argv2).created = 0 ∧
        (create_converter_nif E heap addr argv0 argv1 argv2).heap = heap ∧
        ((enif_get_string argv0 64).isSome = true → (enif_get_string argv1 64).isSome = true →
          (create_converter_nif E heap addr argv0 argv1 argv2).ret =
            Ret.term (error_tuple MSG_UNKNOWN_OPTION))) ∧
    (∀ {σ : Type} (env : ErlNifEnv) (E : EncodingConverter σ) (fuel : Nat) (heap : Heap σ)
      (argv0 argv1 argv2 argv3 : Term),
      parse_option_list argv3 = none →
        ∃ o, convert_binary_opt_nif env E fuel heap argv0 argv1 argv2 argv3 = some o ∧
          o.created = 0 ∧ o.heap = heap ∧
          ((binary_to_string argv0).isSome = true → (enif_get_string argv1 64).isSome = true →
            (enif_get_string argv2 64).isSome = true →
            o.ret = Ret.term (error_tuple MSG_UNKNOWN_OPTION))) := by
  have hzero : ∀ n : Nat, CONVERT_NONE ||| n = n := by
    intro n; unfold CONVERT_NONE; exact Nat.zero_or n
  refine ⟨?_, ?_, ?_, ?_, ?_, ?_, ?_⟩
  · intro lst h
    simp [parse_option_list, h]
  · intro lst h
    simp only [parse_option_list, h, Bool.not_true, Bool.false_eq_true, if_false]
    rw [parse_option_cells_eq]
    split_ifs with hall
    · simpa using hall
    · simpa using hall
  · intro lst opt h
    unfold parse_option_list at h
    split_ifs at h
    rw [parse_option_cells_eq] at h
    split_ifs at h
    simp only [Option.some.injEq] at h
    rw [← h, hzero]
  · rfl
  · intro lst lst' h h' hmem
    simp only [parse_option_list, h, h', Bool.not_true, Bool.false_eq_true, if_false]
    rw [parse_option_cells_eq, parse_option_cells_eq]
    have hall : (∀ e ∈ list_elements lst, e = Term.atom "translit" ∨ e = Term.atom "ignore") ↔
        (∀ e ∈ list_elements lst', e = Term.atom "translit" ∨ e = Term.atom "ignore") := by
      constructor
      · intro hh e he; exact hh e ((hmem e).mpr he)
      · intro hh e he; exact hh e ((hmem e).mp he)
    have hflags : option_flags (list_elements lst) = option_flags (list_elements lst') := by
      unfold option_flags
      simp only [hmem]
    simp only [hall, hflags]
  · intro σ E heap addr argv0 argv1 argv2 h
    unfold create_converter_nif
    cases h0 : enif_get_string argv0 64 <;> cases h1 : enif_get_string argv1 64 <;>
      simp [h]
  · intro σ env E fuel heap argv0 argv1 argv2 argv3 h
    unfold convert_binary_opt_nif
    cases h0 : binary_to_string argv0 <;> cases h1 : enif_get_string argv1 64 <;>
      cases h2 : enif_get_string argv2 64 <;> simp [h]

/-- The option lists `[translit, ignore, translit]` and `[ignore, translit]` both give
the option set 3; the list `[ignore, utf8]` is rejected. -/
theorem parse_option_list_spec_witness :
    parse_option_list (Term.cons (Term.atom "translit") (Term.cons (Term.atom "ignore")
      (Term.cons (Term.atom "translit") Term.nil))) = some 3 ∧
    parse_option_list (Term.cons (Term.atom "ignore") (Term.cons (Term.atom "translit")
      Term.nil)) = some 3 ∧
    parse_option_list (Term.cons (Term.atom "ignore") (Term.cons (Term.atom "utf8")
      Term.nil)) = none ∧
    (create_converter_nif (charsetBackend demoMLang) [] 7 (enif_make_string "CP65001")
      (enif_make_string "CP65001") (Term.cons (Term.atom "utf8") Term.nil)).created = 0 := by
  refine ⟨by decide, by decide, by decide, ?_⟩
  exact (parse_option_list_spec.2.2.2.2.2.1 (charsetBackend demoMLang) [] 7
    (enif_make_string "CP65001") (enif_make_string "CP65001")
    (Term.cons (Term.atom "utf8") Term.nil) (by decide)).1

/-! ## Creation failures -/

theorem CharsetConverter.new_code_pages {κ : Type} (M : MLang κ) (fromEnc toEnc : String)
    (opt : Nat) (conv : CharsetConverter κ) (h : CharsetConverter.new M fromEnc toEnc opt = some conv) :
    CharsetConverter.encNameToCodePage M M.CoCreateInstance toEnc = some conv.toCodePage_ ∧
    CharsetConverter.encNameToCodePage M M.CoCreateInstance fromEnc = some conv.fromCodePage_ := by
  unfold CharsetConverter.new at h
  cases hto : CharsetConverter.encNameToCodePage M M.CoCreateInstance toEnc with
  | none => simp [hto] at h
  | some tcp =>
    cases hfrom : CharsetConverter.encNameToCodePage M M.CoCreateInstance fromEnc with
    | none => simp [hto, hfrom] at h
    | some fcp =>
      simp only [hto, hfrom] at h
      split_ifs at h <;> simp only [Option.some.injEq] at h <;> subst h <;> exact ⟨rfl, rfl⟩

/-- C7: `convert_internal` and `create_converter_nif` return
`{error, "Can't create a converter. ..."}` when `create_converter_noabort` gives no object,
and `{error, "Unknown encoding or conversion not supported: " ++ inenc ++ " or " ++ outenc}`,
naming both encodings, when the object exists but `valid()` is false; `create_converter_nif`
returns `{ok, Handle}` only for a valid converter, which it then keeps at the address
`Handle`.  In the MLang build a constructed converter is not valid whenever either name
resolves to code page 0 or there is no conversion object; in the iconv build the object
always exists and is not valid exactly when the descriptor is `(iconv_t)(-1)`. -/
theorem create_failure_results {σ κ ι : Type} (E : EncodingConverter σ) (M : MLang κ)
    (L : Iconv ι) :
    (∀ env fuel inp inenc outenc opt, E.create_converter_noabort inenc outenc opt = none →
      convert_internal env E fuel inp inenc outenc opt = some (error_tuple MSG_CANT_CREATE)) ∧
    (∀ env fuel inp inenc outenc opt conv,
      E.create_converter_noabort inenc outenc opt = some conv → E.valid conv = false →
      convert_internal env E fuel inp inenc outenc opt =
        some (error_tuple
          ("Unknown encoding or conversion not supported: " ++ inenc ++ " or " ++ outenc))) ∧
    (∀ heap addr argv0 argv1 argv2 inenc outenc opt,
      enif_get_string argv0 64 = some inenc → enif_get_string argv1 64 = some outenc →
      parse_option_list argv2 = some opt →
      (E.create_converter_noabort inenc outenc opt = none →
        create_converter_nif E heap addr argv0 argv1 argv2 =
          Outcome.mk (Ret.term (error_tuple MSG_CANT_CREATE)) heap 1) ∧
      (∀ conv, E.create_converter_noabort inenc outenc opt = some conv →
        E.valid conv = false →
        create_converter_nif E heap addr argv0 argv1 argv2 =
          Outcome.mk (Ret.term (error_tuple
            ("Unknown encoding or conversion not supported: " ++ inenc ++ " or " ++ outenc)))
            heap 1) ∧
      (∀ conv, E.create_converter_noabort inenc outenc opt = some conv →
        E.valid conv = true →
        create_converter_nif E heap addr argv0 argv1 argv2 =
          Outcome.mk (Ret.term (Term.tuple2 (Term.atom "ok") (enif_make_uint64 addr)))
            ((addr, conv) :: heap) 1)) ∧
    (∀ heap addr argv0 argv1 argv2 handle,
      (create_converter_nif E heap addr argv0 argv1 argv2).ret =
        Ret.term (Term.tuple2 (Term.atom "ok") handle) →
      ∃ inenc outenc opt conv, enif_get_string argv0 64 = some inenc ∧
        enif_get_string argv1 64 = some outenc ∧ parse_option_list argv2 = some opt ∧
        E.create_converter_noabort inenc outenc opt = some conv ∧ E.valid conv = true ∧
        handle = enif_make_uint64 addr ∧
        (create_converter_nif E heap addr argv0 argv1 argv2).heap = (addr, conv) :: heap) ∧
    (∀ conv : CharsetConverter κ,
      conv.toCodePage_ = 0 ∨ conv.fromCodePage_ = 0 ∨ conv.conv_ = none ∨ conv.ml_ = false →
      (charsetBackend M).valid conv = false) ∧
    (∀ fromEnc toEnc opt conv,
      (charsetBackend M).create_converter_noabort fromEnc toEnc opt = some conv →
      CharsetConverter.encNameToCodePage M M.CoCreateInstance toEnc = some 0 ∨
        CharsetConverter.encNameToCodePage M M.CoCreateInstance fromEnc = some 0 →
      (charsetBackend M).valid conv = false) ∧
    (∀ fromEnc toEnc opt, ∃ conv,
      (streamBackend L).create_converter_noabort fromEnc toEnc opt = some conv) ∧
    (∀ conv : StreamConverter ι, (streamBackend L).valid conv = false ↔ conv.cd_ = none) := by
  refine ⟨?_, ?_, ?_, ?_, ?_, ?_, ?_, ?_⟩
  · intro env fuel inp inenc outenc opt h
    simp [convert_internal, h]
  · intro env fuel inp inenc outenc opt conv h hv
    simp [convert_internal, h, hv, msg_unknown_encoding]
  · intro heap addr argv0 argv1 argv2 inenc outenc opt h0 h1 h2
    refine ⟨?_, ?_, ?_⟩
    · intro h
      simp [create_converter_nif, h0, h1, h2, h]
    · intro conv h hv
      simp [create_converter_nif, h0, h1, h2, h, hv, msg_unknown_encoding]
    · intro conv h hv
      simp [create_converter_nif, h0, h1, h2, h, hv]
  · intro heap addr argv0 argv1 argv2 handle h
    unfold create_converter_nif at h ⊢
    cases h0 : enif_get_string argv0 64 with
    | none => simp [h0] at h
    | some inenc =>
      cases h1 : enif_get_string argv1 64 with
      | none => simp [h0, h1] at h
      | some outenc =>
        cases h2 : parse_option_list argv2 with
        | none => simp [h0, h1, h2, error_tuple] at h
        | some opt =>
          cases hc : E.create_converter_noabort inenc outenc opt with
          | none => simp [h0, h1, h2, hc, error_tuple] at h
          | some conv =>
            by_cases hv : E.valid conv = true
            · simp only [h0, h1, h2, hc, hv, Bool.not_true, Bool.false_eq_true, if_false,
                Ret.term.injEq, Term.tuple2.injEq, true_and] at h
              refine ⟨inenc, outenc, opt, conv, rfl, rfl, rfl, hc, hv, h.symm, ?_⟩
              simp [hc, hv]
            · simp [h0, h1, h2, hc, hv, error_tuple] at h
  · intro conv h
    simp only [charsetBackend, CharsetConverter.valid]
    rcases h with h | h | h | h <;> simp [h]
  · intro fromEnc toEnc opt conv hnew h0
    have hcp := CharsetConverter.new_code_pages M fromEnc toEnc opt conv hnew
    simp only [charsetBackend, CharsetConverter.valid]
    rcases h0 with h0 | h0
    · have : conv.toCodePage_ = 0 := by
        have := hcp.1.symm.trans h0
        exact Option.some.inj this
      simp [this]
    · have : conv.fromCodePage_ = 0 := by
        have := hcp.2.symm.trans h0
        exact Option.some.inj this
      simp [this]
  · intro fromEnc toEnc opt
    exact ⟨_, rfl⟩
  · intro conv
    simp [streamBackend, StreamConverter.valid]



/-- Creating a converter from `UTF-8` to `NOT-A-REAL-ENCODING` fails naming both
encodings; without COM the MLang build fails to construct the object at all. -/
theorem create_failure_results_witness :
    create_converter_nif (streamBackend asciiIconv) [] 7 (enif_make_string "UTF-8")
        (enif_make_string "NOT-A-REAL-ENCODING") Term.nil =
      Outcome.mk (Ret.term (error_tuple
        "Unknown encoding or conversion not supported: UTF-8 or NOT-A-REAL-ENCODING")) [] 1 ∧
    convert_internal demoEnv (charsetBackend noComMLang) 1 [65] "utf-8" "utf-8" 0 =
      some (error_tuple MSG_CANT_CREATE) ∧
    convert_internal demoEnv (charsetBackend demoMLang) 1 [65] "utf-8" "NOT-A-REAL-ENCODING" 0 =
      some (error_tuple
        "Unknown encoding or conversion not supported: utf-8 or NOT-A-REAL-ENCODING") := by
  have h := create_failure_results (streamBackend asciiIconv) noComMLang asciiIconv
  have h' := create_failure_results (charsetBackend noComMLang) noComMLang asciiIconv
  have h'' := create_failure_results (charsetBackend demoMLang) demoMLang asciiIconv
  refine ⟨?_, ?_, ?_⟩
  · exact (h.2.2.1 [] 7 (enif_make_string "UTF-8") (enif_make_string "NOT-A-REAL-ENCODING")
      Term.nil "UTF-8" "NOT-A-REAL-ENCODING" 0 (by decide) (by decide) (by decide)).2.1
      (StreamConverter.mk "UTF-8" "NOT-A-REAL-ENCODING" none) rfl rfl
  · exact h'.1 demoEnv 1 [65] "utf-8" "utf-8" 0 rfl
  · exact h''.2.1 demoEnv 1 [65] "utf-8" "NOT-A-REAL-ENCODING" 0
      (CharsetConverter.mk "utf-8" "NOT-A-REAL-ENCODING" 0 0 65001 true (some ())) rfl rfl

/-! ## Handles -/

theorem enif_get_uint64_zero_or_not_integer (argv : Term)
    (h : argv = Term.integer 0 ∨ ∀ n, argv ≠ Term.integer n) :
    enif_get_uint64 argv = some 0 ∨ enif_get_uint64 argv = none := by
  rcases h with h | h
  · left; subst h; decide
  · right
    cases argv with
    | integer n => exact absurd rfl (h n)
    | _ => rfl

/-- C8: for a handle argument that is the integer 0, or that is not an integer at all,
`destroy_converter_nif`, `do_convert_nif`, `flush_converter_nif` and `reset_converter_nif`
each raise `badarg` and leave the heap of converters exactly as it was: no converter is
deleted, converted with, flushed or reset, whatever the build and the other argument. -/
theorem handle_zero_rejected {σ : Type} (env : ErlNifEnv) (E : EncodingConverter σ)
    (fuel : Nat) (heap : Heap σ) (argv0 handle : Term)
    (hzero : handle = Term.integer 0 ∨ ∀ n, handle ≠ Term.integer n) :
    destroy_converter_nif heap handle = Outcome.mk Ret.badarg heap 0 ∧
    do_convert_nif env E fuel heap argv0 handle = some (Outcome.mk Ret.badarg heap 0) ∧
    flush_converter_nif env E heap handle = Outcome.mk Ret.badarg heap 0 ∧
    reset_converter_nif E heap handle = Outcome.mk Ret.badarg heap 0 := by
  rcases enif_get_uint64_zero_or_not_integer handle hzero with h | h
  · refine ⟨?_, ?_, ?_, ?_⟩
    · simp [destroy_converter_nif, h]
    · unfold do_convert_nif
      cases binary_to_string argv0 <;> simp [h]
    · simp [flush_converter_nif, h]
    · simp [reset_converter_nif, h]
  · refine ⟨?_, ?_, ?_, ?_⟩
    · simp [destroy_converter_nif, h]
    · unfold do_convert_nif
      cases binary_to_string argv0 <;> simp [h]
    · simp [flush_converter_nif, h]
    · simp [reset_converter_nif, h]

theorem handle_zero_rejected_witness :
    (Term.integer 0 = Term.integer 0 ∨ ∀ n, Term.integer 0 ≠ Term.integer n) ∧
    destroy_converter_nif [(7, demoConv)] (Term.integer 0) =
      Outcome.mk Ret.badarg [(7, demoConv)] 0 ∧
    do_convert_nif demoEnv (charsetBackend demoMLang) 1 [(7, demoConv)] (Term.binary [65])
      (Term.integer 0) = some (Outcome.mk Ret.badarg [(7, demoConv)] 0) ∧
    flush_converter_nif demoEnv (charsetBackend demoMLang) [(7, demoConv)] (Term.integer 0) =
      Outcome.mk Ret.badarg [(7, demoConv)] 0 ∧
    reset_converter_nif (charsetBackend demoMLang) [(7, demoConv)] (Term.integer 0) =
      Outcome.mk Ret.badarg [(7, demoConv)] 0 :=
  ⟨Or.inl rfl, handle_zero_rejected demoEnv (charsetBackend demoMLang) 1 [(7, demoConv)]
    (Term.binary [65]) (Term.integer 0) (Or.inl rfl)⟩

/-! ## Empty input -/

theorem convert_str_empty {σ : Type} (E : EncodingConverter σ) (fuel : Nat) (conv : σ)
    (hleft : (E.convert conv [] 0 BUFSIZE).inputBytesLeft = 0) :
    convert_str E (fuel + 1) conv [] 0 =
      some (ConvertResult.mk
        (if (E.convert conv [] 0 BUFSIZE).ok = true then appended (E.convert conv [] 0 BUFSIZE)
          else [])
        0 (E.convert conv [] 0 BUFSIZE).self
        [ChunkCall.mk [] 0 (E.convert conv [] 0 BUFSIZE)]) := by
  unfold convert_str
  simp only [convert_loop, hleft, appended]
  by_cases hok : (E.convert conv [] 0 BUFSIZE).ok = true
  · simp [hok]
  · simp [hok]

theorem ok_or_no_binary_ne_incomplete (p : Prop) [Decidable p] (out n : Term) :
    some (if p then Term.tuple3 (Term.atom "ok") out n else error_tuple MSG_NO_BINARY) ≠
      some (error_tuple MSG_INCOMPLETE) := by
  have hne : error_tuple MSG_NO_BINARY ≠ error_tuple MSG_INCOMPLETE := by decide
  by_cases hp : p
  · rw [if_pos hp]
    intro h
    exact error_tuple_ne_ok _ _ _ (Option.some.inj h).symm
  · rw [if_neg hp]
    intro h
    exact hne (Option.some.inj h)

/-- C9: on the empty input, for a converter that was created and is valid and for every
option set, the convert loop makes exactly one chunk call, with zero input bytes, and
leaves `inlen = 0`; `convert_internal` therefore never returns the leftover-input error,
with or without `CONVERT_DISCARD_ILSEQ`, but `{ok, Output, 0}` where `Output` is what
that one call and the flush wrote (or the allocation error).  When the chunk call given
no input and the flush write no bytes and the empty binary can be allocated, the result
is `{ok, <<>>, 0}`.  In the MLang build a chunk call handed zero bytes always leaves zero
bytes. -/
theorem convert_internal_empty_input {σ κ : Type} (env : ErlNifEnv) (E : EncodingConverter σ)
    (M : MLang κ) (fuel : Nat) (inenc outenc : String) (opt : Nat) (conv : σ)
    (hcreate : E.create_converter_noabort inenc outenc opt = some conv)
    (hvalid : E.valid conv = true)
    (hleft : (E.convert conv [] 0 BUFSIZE).inputBytesLeft = 0) :
    (convert_str E (fuel + 1) conv [] 0).map (fun c => (c.inputBytesLeft, c.calls)) =
      some (0, [ChunkCall.mk [] 0 (E.convert conv [] 0 BUFSIZE)]) ∧
    convert_internal env E (fuel + 1) [] inenc outenc opt ≠ some (error_tuple MSG_INCOMPLETE) ∧
    convert_internal env E (fuel + 1) [] inenc outenc opt =
      some (if env.enif_alloc_binary
          ((if (E.convert conv [] 0 BUFSIZE).ok = true
            then appended (E.convert conv [] 0 BUFSIZE) else []) ++
            (flush_str E (E.convert conv [] 0 BUFSIZE).self).1).length = true
        then Term.tuple3 (Term.atom "ok")
          (Term.binary ((if (E.convert conv [] 0 BUFSIZE).ok = true
            then appended (E.convert conv [] 0 BUFSIZE) else []) ++
            (flush_str E (E.convert conv [] 0 BUFSIZE).self).1))
          (Term.integer 0)
        else error_tuple MSG_NO_BINARY) ∧
    (((E.convert conv [] 0 BUFSIZE).ok = true → appended (E.convert conv [] 0 BUFSIZE) = []) →
      (flush_str E (E.convert conv [] 0 BUFSIZE).self).1 = [] →
      env.enif_alloc_binary 0 = true →
      convert_internal env E (fuel + 1) [] inenc outenc opt =
        some (Term.tuple3 (Term.atom "ok") (Term.binary []) (Term.integer 0))) ∧
    (∀ (self : CharsetConverter κ) (input : List Byte),
      ((charsetBackend M).convert self input 0 BUFSIZE).inputBytesLeft = 0) := by
  have hstr := convert_str_empty E fuel conv hleft
  have hmain : convert_internal env E (fuel + 1) [] inenc outenc opt =
      some (if env.enif_alloc_binary
          ((if (E.convert conv [] 0 BUFSIZE).ok = true
            then appended (E.convert conv [] 0 BUFSIZE) else []) ++
            (flush_str E (E.convert conv [] 0 BUFSIZE).self).1).length = true
        then Term.tuple3 (Term.atom "ok")
          (Term.binary ((if (E.convert conv [] 0 BUFSIZE).ok = true
            then appended (E.convert conv [] 0 BUFSIZE) else []) ++
            (flush_str E (E.convert conv [] 0 BUFSIZE).self).1))
          (Term.integer 0)
        else error_tuple MSG_NO_BINARY) := by
    unfold convert_internal
    simp only [hcreate, hvalid, Bool.not_true, Bool.false_eq_true, if_false, List.length_nil,
      hstr, Nat.lt_irrefl, gt_iff_lt, false_and]
    unfold string_to_binary
    split_ifs <;> simp_all [enif_make_uint64]
  refine ⟨?_, ?_, hmain, ?_, ?_⟩
  · rw [hstr]; rfl
  · rw [hmain]
    exact ok_or_no_binary_ne_incomplete _ _ _
  · intro hchunk hflush halloc
    rw [hmain]
    have hout : (if (E.convert conv [] 0 BUFSIZE).ok = true
        then appended (E.convert conv [] 0 BUFSIZE) else []) = [] := by
      split_ifs with hok
      · exact hchunk hok
      · rfl
    rw [hout, hflush]
    simp [halloc]
  · intro self input
    obtain ⟨fe, te, o, tcp, fcp, ml, cv⟩ := self
    simp only [charsetBackend, CharsetConverter.convert]
    by_cases hsame : tcp = fcp
    · simp [hsame]
    · simp only [hsame, if_false]
      cases cv with
      | none => rfl
      | some c =>
        simp only
        split_ifs <;> simp



/-- The empty input converted from `CP65001` to `CP65001` without any option, and from
`UTF-8` to `ASCII` without any option, gives `{ok, <<>>, 0}`. -/
theorem convert_internal_empty_input_witness :
    (charsetBackend demoMLang).create_converter_noabort "CP65001" "CP65001" 0 = some demoConv ∧
    (charsetBackend demoMLang).valid demoConv = true ∧
    ((charsetBackend demoMLang).convert demoConv [] 0 BUFSIZE).inputBytesLeft = 0 ∧
    convert_internal demoEnv (charsetBackend demoMLang) 1 [] "CP65001" "CP65001" 0 =
      some (Term.tuple3 (Term.atom "ok") (Term.binary []) (Term.integer 0)) ∧
    convert_internal demoEnv (streamBackend asciiIconv) 1 [] "UTF-8" "ASCII" 0 =
      some (Term.tuple3 (Term.atom "ok") (Term.binary []) (Term.integer 0)) :=
  ⟨rfl, rfl, rfl,
    (convert_internal_empty_input demoEnv (charsetBackend demoMLang) demoMLang 0 "CP65001"
      "CP65001" 0 demoConv rfl rfl rfl).2.2.2.1 (by decide) (by decide) rfl,
    (convert_internal_empty_input demoEnv (streamBackend asciiIconv) demoMLang 0 "UTF-8"
      "ASCII" 0 (StreamConverter.mk "UTF-8" "ASCII" (some false)) rfl rfl rfl).2.2.2.1
      (by decide) (by decide) rfl⟩

/-! ## A failing chunk call -/

theorem convert_loop_calls {σ : Type} (E : EncodingConverter σ) (input : List Byte) :
    ∀ (fuel : Nat) (self : σ) (left : Nat) (c : ConvertResult σ),
      convert_loop E input fuel self left [] [] = some c →
      c.ret = ok_outputs c.calls ∧
      (∀ k ∈ c.calls.dropLast, k.result.ok = true) ∧
      (∀ k ∈ c.calls, k.input = input) ∧
      c.calls.head? = some (ChunkCall.mk input left (E.convert self input left BUFSIZE)) := by
  intro fuel
  induction fuel with
  | zero => intro self left c h; simp [convert_loop] at h
  | succ n ih =>
    intro self left c h
    simp only [convert_loop] at h
    by_cases hok : (E.convert self input left BUFSIZE).ok = true
    · by_cases hleft : (E.convert self input left BUFSIZE).inputBytesLeft > 0
      · simp only [hok, hleft, Bool.not_true, Bool.false_eq_true, if_false, if_true] at h
        rw [convert_loop_acc] at h
        cases hc' : convert_loop E input n (E.convert self input left BUFSIZE).self
            (E.convert self input left BUFSIZE).inputBytesLeft [] [] with
        | none => simp [hc'] at h
        | some c' =>
          simp only [hc', Option.map_some', Option.some.injEq] at h
          obtain ⟨h1, h2, h3, h4⟩ := ih _ _ c' hc'
          have hne : c'.calls ≠ [] := by
            intro hnil
            rw [hnil] at h4
            simp at h4
          subst h
          simp only [List.nil_append, List.singleton_append]
          refine ⟨?_, ?_, ?_, ?_⟩
          · simp only [ok_outputs, hok, if_true, appended]
            rw [h1]
          · rw [List.dropLast_cons_of_ne_nil hne]
            intro k hk
            rcases List.mem_cons.mp hk with hk | hk
            · subst hk; exact hok
            · exact h2 k hk
          · intro k hk
            rcases List.mem_cons.mp hk with hk | hk
            · subst hk; rfl
            · exact h3 k hk
          · rfl
      · simp only [hok, hleft, Bool.not_true, Bool.false_eq_true, if_false,
          Option.some.injEq] at h
        subst h
        simp [ok_outputs, hok, appended]
    · simp only [hok, Bool.not_false, if_true, Option.some.injEq] at h
      subst h
      simp [ok_outputs, hok]

/-- C10: whenever the convenience convert loop returns, every chunk call but the last
reported success, every call was handed the same pointer `input`, and the returned
string is exactly the concatenation of the bytes appended after the calls that reported
success: what a failing call wrote into the buffer is not part of it.  When the first
chunk call fails, the loop returns at once, for any fuel, with the empty string after
that single call.  In the iconv build a chunk call on an open descriptor fails exactly
when `iconv` returns `(size_t)(-1)`, whatever the cause. -/
theorem convert_str_stops_at_failure {σ ι : Type} (E : EncodingConverter σ) (L : Iconv ι)
    (input : List Byte) (self : σ) (left : Nat) :
    (∀ fuel c, convert_str E fuel self input left = some c →
      c.ret = ok_outputs c.calls ∧
      (∀ k ∈ c.calls.dropLast, k.result.ok = true) ∧
      (∀ k ∈ c.calls, k.input = input) ∧
      c.calls.head? = some (ChunkCall.mk input left (E.convert self input left BUFSIZE))) ∧
    ((E.convert self input left BUFSIZE).ok = false →
      ∀ fuel, convert_str E (fuel + 1) self input left =
        some (ConvertResult.mk [] (E.convert self input left BUFSIZE).inputBytesLeft
          (E.convert self input left BUFSIZE).self
          [ChunkCall.mk input left (E.convert self input left BUFSIZE)])) ∧
    (∀ (conv : StreamConverter ι) (cd : ι) (outputBytesLeft : Nat), conv.cd_ = some cd →
      (((streamBackend L).convert conv input left outputBytesLeft).ok = false ↔
        (L.iconv cd input left outputBytesLeft).res = -1)) := by
  refine ⟨?_, ?_, ?_⟩
  · intro fuel c h
    exact convert_loop_calls E input fuel self left c h
  · intro hfail fuel
    simp [convert_str, convert_loop, hfail]
  · intro conv cd outputBytesLeft hcd
    simp [streamBackend, StreamConverter.convert, hcd]



set_option maxRecDepth 100000 in
/-- Converting `café` to ASCII, the first chunk call writes `caf` and fails at the next
byte: the loop returns the empty string with two bytes left.  Converting 1025 ASCII bytes,
the first chunk call fills the buffer and fails for lack of room: the loop returns the
empty string with one byte left. -/
theorem convert_str_stops_at_failure_witness :
    ((streamBackend asciiIconv).convert (StreamConverter.mk "UTF-8" "ASCII" (some false))
      cafe 5 BUFSIZE).ok = false ∧
    appended ((streamBackend asciiIconv).convert (StreamConverter.mk "UTF-8" "ASCII" (some false))
      cafe 5 BUFSIZE) = [99, 97, 102] ∧
    (convert_str (streamBackend asciiIconv) 1 (StreamConverter.mk "UTF-8" "ASCII" (some false))
      cafe 5).map (fun c => (c.ret, c.inputBytesLeft)) = some ([], 2) ∧
    (convert_str (streamBackend asciiIconv) 1 (StreamConverter.mk "UTF-8" "ASCII" (some false))
      longInput 1025).map (fun c => (c.ret, c.inputBytesLeft)) = some ([], 1) := by
  have h := (convert_str_stops_at_failure (streamBackend asciiIconv) asciiIconv cafe
    (StreamConverter.mk "UTF-8" "ASCII" (some false)) 5).2.1 (by decide) 0
  have h' := (convert_str_stops_at_failure (streamBackend asciiIconv) asciiIconv longInput
    (StreamConverter.mk "UTF-8" "ASCII" (some false)) 1025).2.1 (by decide) 0
  refine ⟨by decide, by decide, ?_, ?_⟩
  · rw [h]; decide
  · rw [h']; decide

/-! ## Termination of the convert loop -/

theorem charset_copy_chunk {κ : Type} (M : MLang κ) (self : CharsetConverter κ)
    (hsame : self.toCodePage_ = self.fromCodePage_) (input : List Byte) (left : Nat) :
    (charsetBackend M).convert self input left BUFSIZE =
      ChunkResult.mk true (left - min left BUFSIZE) (BUFSIZE - min left BUFSIZE)
        (input.take (min left BUFSIZE)) self := by
  simp [charsetBackend, CharsetConverter.convert, hsame]

theorem charset_copy_loop {κ : Type} (M : MLang κ) (self : CharsetConverter κ)
    (hsame : self.toCodePage_ = self.fromCodePage_) (input : List Byte) :
    ∀ (fuel left : Nat) (ret : List Byte) (calls : List (ChunkCall (CharsetConverter κ))),
      left < fuel → left ≤ input.length →
      ∃ c, convert_loop (charsetBackend M) input fuel self left ret calls = some c ∧
        c.inputBytesLeft = 0 ∧ c.ret.length = ret.length + left ∧
        (left ≤ BUFSIZE → c.ret = ret ++ input.take left) ∧ c.self = self := by
  intro fuel
  induction fuel with
  | zero => intro left ret calls h; omega
  | succ n ih =>
    intro left ret calls hfuel hlen
    simp only [convert_loop, charset_copy_chunk M self hsame]
    by_cases hle : left ≤ BUFSIZE
    · have hmin : min left BUFSIZE = left := Nat.min_eq_left hle
      have hsub : BUFSIZE - (BUFSIZE - left) = left := by omega
      simp only [hmin, Nat.sub_self, hsub, List.take_take, Nat.min_self, Bool.not_true,
        Bool.false_eq_true, if_false, gt_iff_lt, Nat.lt_irrefl]
      refine ⟨_, rfl, rfl, ?_, ?_, rfl⟩
      · simp only [List.length_append, List.length_take]
        omega
      · intro _; rfl
    · have hgt : BUFSIZE < left := Nat.lt_of_not_le hle
      have hmin : min left BUFSIZE = BUFSIZE := Nat.min_eq_right (Nat.le_of_lt hgt)
      have hpos : left - BUFSIZE > 0 := by omega
      simp only [hmin, Nat.sub_self, Nat.sub_zero, List.take_take, Nat.min_self, Bool.not_true,
        Bool.false_eq_true, if_false, hpos, if_true]
      have hB : BUFSIZE = 1024 := rfl
      obtain ⟨c, hc, h0, hl, _, hs⟩ := ih (left - BUFSIZE) (ret ++ List.take BUFSIZE input)
        (calls ++ [ChunkCall.mk input left (ChunkResult.mk true (left - BUFSIZE) 0
          (List.take BUFSIZE input) self)]) (by omega) (by omega)
      refine ⟨c, hc, h0, ?_, ?_, hs⟩
      · rw [hl]
        simp only [List.length_append, List.length_take]
        omega
      · intro h; omega

theorem convert_loop_stuck {σ : Type} (E : EncodingConverter σ) (input : List Byte)
    (left : Nat) (stuck : σ → Prop) (hleft : 0 < left)
    (hstuck : ∀ s, stuck s → (E.convert s input left BUFSIZE).ok = true ∧
      (E.convert s input left BUFSIZE).inputBytesLeft = left ∧
      stuck (E.convert s input left BUFSIZE).self) :
    ∀ (fuel : Nat) (self : σ) (ret : List Byte) (calls : List (ChunkCall σ)), stuck self →
      convert_loop E input fuel self left ret calls = none := by
  intro fuel
  induction fuel with
  | zero => intro self ret calls _; rfl
  | succ n ih =>
    intro self ret calls hs
    obtain ⟨hok, hl, hs'⟩ := hstuck self hs
    simp only [convert_loop, hok, hl, Bool.not_true, Bool.false_eq_true, if_false, gt_iff_lt,
      hleft, if_true]
    have := ih (E.convert self input left BUFSIZE).self
      (ret ++ List.take (BUFSIZE - (E.convert self input left BUFSIZE).outputBytesLeft)
        (E.convert self input left BUFSIZE).output)
      (calls ++ [ChunkCall.mk input left (E.convert self input left BUFSIZE)]) hs'
    exact this



/-- C11: the convenience convert loop returns within `inputBytesLeft + 1` chunk calls
whenever every chunk call that reports success and leaves input has consumed at least one
byte.  On the byte-copy path of the MLang build (`toCodePage_ == fromCodePage_`) a chunk
call with input remaining consumes at least one byte, and for every count `n` of input
bytes the loop returns with `inputBytesLeft = 0` and an output of exactly `n` bytes.  The
loop has no other exit: from a converter whose chunk call reports success and leaves
`inputBytesLeft` at the same non-zero value, and keeps doing so, the loop does not return
for any number of iterations. -/
theorem convert_loop_termination {σ κ : Type} (E : EncodingConverter σ) (M : MLang κ)
    (input : List Byte) :
    (Progress E input →
      ∀ self left, ∃ c, convert_str E (left + 1) self input left = some c) ∧
    (∀ (self : CharsetConverter κ), self.toCodePage_ = self.fromCodePage_ →
      (∀ left, 0 < left →
        ((charsetBackend M).convert self input left BUFSIZE).ok = true ∧
        ((charsetBackend M).convert self input left BUFSIZE).inputBytesLeft < left) ∧
      (∀ n, n ≤ input.length →
        ∃ c, convert_str (charsetBackend M) (n + 1) self input n = some c ∧
          c.inputBytesLeft = 0 ∧ c.ret.length = n)) ∧
    (∀ (stuck : σ → Prop) (left : Nat), 0 < left →
      (∀ s, stuck s → (E.convert s input left BUFSIZE).ok = true ∧
        (E.convert s input left BUFSIZE).inputBytesLeft = left ∧
        stuck (E.convert s input left BUFSIZE).self) →
      ∀ self, stuck self → ∀ fuel, convert_str E fuel self input left = none) := by
  refine ⟨?_, ?_, ?_⟩
  · intro hprog self left
    exact convert_str_terminates E input hprog self left
  · intro self hsame
    constructor
    · intro left hleft
      rw [charset_copy_chunk M self hsame]
      have hB : BUFSIZE = 1024 := rfl
      simp only [true_and]
      omega
    · intro n hn
      obtain ⟨c, hc, h0, hl, _, _⟩ :=
        charset_copy_loop M self hsame input (n + 1) n [] [] (Nat.lt_succ_self n) hn
      refine ⟨c, hc, h0, ?_⟩
      simpa using hl
  · intro stuck left hleft hstuck self hs fuel
    exact convert_loop_stuck E input left stuck hleft hstuck fuel self [] [] hs

set_option maxRecDepth 100000 in
/-- The byte-copy loop on the 1025-byte input `longInput` returns 1025 bytes and leaves no
input; the loop over an iconv that reports success without consuming anything has not
returned after 1000 iterations. -/
theorem convert_loop_termination_witness :
    (∃ c, convert_str (charsetBackend demoMLang) (1025 + 1) demoConv longInput 1025 = some c ∧
      c.inputBytesLeft = 0 ∧ c.ret.length = 1025) ∧
    convert_str (streamBackend stuckIconv) 1000 (StreamConverter.mk "A" "B" (some ())) [65] 1 =
      none := by
  have h := convert_loop_termination (streamBackend stuckIconv) demoMLang [65]
  have h' := convert_loop_termination (streamBackend stuckIconv) demoMLang longInput
  refine ⟨?_, ?_⟩
  · exact (h'.2.1 demoConv rfl).2 1025 (by decide)
  · exact h.2.2 (fun s => s = StreamConverter.mk "A" "B" (some ())) 1 (by decide)
      (by intro s hs; subst hs; exact ⟨rfl, rfl, rfl⟩) _ rfl 1000

end Encconv
